import Mathlib

/-!
Verification of the milo-price-tracker-sg extraction-and-consolidation
pipeline.  The Python sources src/multi_platform_scraper.py and
src/complete_backend.py are shallowly embedded below: pure helper
functions become Lean functions on List Char / String, Python floats
become exact rationals, dict records become structures, and the
selector fallback chains of the scrapers are abstracted to their
resolved results (an Option/Bool field per chain), since no verified
property depends on the internal order of a chain.
-/

namespace Milo

/-- Lowercase a string character by character, as the Python lower
method does on the ASCII product names this scraper handles. -/
def lowerL (s : String) : List Char := s.toList.map Char.toLower

/-- Python substring containment (needle in hay) on character lists. -/
def containsSub (needle : List Char) : List Char → Bool
  | [] => needle.isEmpty
  | c :: t => needle.isPrefixOf (c :: t) || containsSub needle t

/-- Python expression (w in text) for a keyword w and a text. -/
def pyIn (w : String) (text : List Char) : Bool := containsSub w.toList text

/-- Round a rational to the nearest integer, ties to even, as the
Python round builtin behaves on exactly representable inputs. -/
def rndHalfEven (q : ℚ) : ℤ :=
  let f := ⌊q⌋
  if q - f < 1/2 then f
  else if (1 : ℚ)/2 < q - f then f + 1
  else if f % 2 = 0 then f else f + 1

/-- Python round(x, 1), modelled exactly on rationals. -/
def pyRound1 (q : ℚ) : ℚ := (rndHalfEven (q * 10) : ℚ) / 10

/-- Python round(x, 2), modelled exactly on rationals. -/
def pyRound2 (q : ℚ) : ℚ := (rndHalfEven (q * 100) : ℚ) / 100

/-- Keyword set for the uht category (multi_platform_scraper.py line 30). -/
def uht_words : List String := ["uht", "packet", "200ml", "tetra"]

/-- Keyword set for the powder category (line 32). -/
def powder_words : List String := ["powder", "tin", "refill", "kg", "sachet", "gao"]

/-- Keyword set for the bottle category (line 34). -/
def bottle_words : List String := ["bottle", "1l", "1.5l", "pet", "drink"]

/-- BaseScraper._categorize_milo_product (multi_platform_scraper.py
lines 26-37): test the lowercased name against the three keyword sets
in priority order uht, powder, bottle; no match gives other. -/
def categorize_milo_product (name : String) : String :=
  let n := lowerL name
  if uht_words.any (fun w => pyIn w n) then "uht"
  else if powder_words.any (fun w => pyIn w n) then "powder"
  else if bottle_words.any (fun w => pyIn w n) then "bottle"
  else "other"

/-- Numeric value of a run of decimal digit characters. -/
def digitsVal (l : List Char) : ℕ := l.foldl (fun a c => 10 * a + (c.toNat - 48)) 0

/-- Drop every comma, dollar sign and capital S from the text, as the
three replace calls in BaseScraper._extract_price do (line 43). -/
def stripPrice (l : List Char) : List Char :=
  l.filter (fun c => !(c == ',' || c == '$' || c == 'S'))

/-- BaseScraper._extract_price (multi_platform_scraper.py lines 39-47):
strip separators and currency symbols, then take the first match of the
regex (digits, optional dot, optional digits) and read it as a number;
empty input or no digit anywhere gives 0.0. -/
def extract_price (text : String) : ℚ :=
  if text.isEmpty then 0
  else
    let p := stripPrice text.toList
    let rest := p.dropWhile (fun c => !c.isDigit)
    match rest with
    | [] => 0
    | _ :: _ =>
      let d1 := rest.takeWhile Char.isDigit
      let r2 := rest.dropWhile Char.isDigit
      let d2 := if r2.head? = some '.' then r2.tail.takeWhile Char.isDigit else []
      (digitsVal d1 : ℚ) + (digitsVal d2 : ℚ) / (10 : ℚ) ^ d2.length

/-- Value of a decimal literal given its integer and fraction digits. -/
def decVal (intPart fracPart : List Char) : ℚ :=
  (digitsVal intPart : ℚ) + (digitsVal fracPart : ℚ) / (10 : ℚ) ^ fracPart.length

/-- Split a character list into its leading digit run and the rest,
written as a direct recursion (specification-side scanner for C8). -/
def splitDigits : List Char → List Char × List Char
  | [] => ([], [])
  | c :: t =>
    if c.isDigit then
      let p := splitDigits t
      (c :: p.1, p.2)
    else ([], c :: t)

/-- Value of the first decimal-like numeric substring of a character
list, or none when the list has no digit: an independent scanner used
to state what the first regex match of extract_price denotes. -/
def firstNumVal : List Char → Option ℚ
  | [] => none
  | c :: t =>
    if c.isDigit then
      let p := splitDigits (c :: t)
      some (if p.2.head? = some '.' then decVal p.1 (splitDigits p.2.tail).1
        else decVal p.1 [])
    else firstNumVal t

/-- Result record built by _detect_shopee_flash_sale and
_detect_lazada_flash_sale (the flash_info dict). -/
structure FlashInfo where
  is_flash_sale : Bool
  sale_type : String
  ends_at : Option String
deriving DecidableEq

/-- A rendered product container as seen by FairPriceScraper.scrape,
ShengSiongScraper.scrape and GiantScraper.scrape.  Each selector
fallback chain of the source is abstracted to its resolved result:
nameElem is the text of the first matching name locator (none when the
whole chain misses and the container is skipped), and likewise for the
price, original-price and link chains. -/
structure BasicContainer where
  nameElem : Option String
  priceText : Option String
  originalPriceText : Option String
  href : Option String
deriving DecidableEq

/-- A rendered product container as seen by ShopeeScraper: resolved
name/price/original-price/link chains, the visible text of the whole
container, whether the flash badge and shopee-sale/promotion badge
selectors matched, and the stripped text of a countdown element when
one is present. -/
structure ShopeeContainer where
  nameElem : Option String
  priceText : Option String
  originalPriceText : Option String
  text : String
  hasFlashBadge : Bool
  hasShopeeSaleBadge : Bool
  timerText : Option String
  href : Option String
deriving DecidableEq

/-- A rendered product container as seen by LazadaScraper: like the
Shopee one, plus the texts of the sale-tag/promotion/badge elements and
of the stock/quantity elements the Lazada detector iterates over. -/
structure LazadaContainer where
  nameElem : Option String
  priceText : Option String
  originalPriceText : Option String
  text : String
  hasFlashBadge : Bool
  saleTagTexts : List String
  timerText : Option String
  stockTexts : List String
  href : Option String
deriving DecidableEq

/-- Flash-sale phrase list of _detect_shopee_flash_sale (lines 272-275). -/
def shopee_flash_indicators : List String :=
  ["flash sale", "flash deal", "lightning deal", "limited time",
   "hourly sale", "shopee live sale", "limited offer"]

/-- ShopeeScraper._detect_shopee_flash_sale (multi_platform_scraper.py
lines 262-321): keyword match, badge checks, countdown timer, then a
fallback 20 percent discount rule. -/
def detect_shopee_flash_sale (c : ShopeeContainer) (current_price original_price : ℚ) :
    FlashInfo :=
  let f0 : FlashInfo := { is_flash_sale := false, sale_type := "normal", ends_at := none }
  let ct := lowerL c.text
  let f1 := if shopee_flash_indicators.any (fun ind => pyIn ind ct)
    then { f0 with is_flash_sale := true, sale_type := "flash_sale" } else f0
  let f2 := if c.hasFlashBadge
    then { f1 with is_flash_sale := true, sale_type := "flash_sale" } else f1
  let f3 := if c.hasShopeeSaleBadge ∧ f2.is_flash_sale = false
    then { f2 with is_flash_sale := true, sale_type := "shopee_sale" } else f2
  let f4 := match c.timerText with
    | some t =>
      { is_flash_sale := true,
        sale_type := if f3.sale_type == "normal" then "flash_sale" else f3.sale_type,
        ends_at := some (if t.isEmpty then "Soon" else t) }
    | none => f3
  if f4.is_flash_sale = false ∧ original_price > current_price ∧ current_price > 0 then
    let discount := ((original_price - current_price) / original_price) * 100
    if discount ≥ 20 then { f4 with is_flash_sale := true, sale_type := "discount" } else f4
  else f4

/-- Flash-sale phrase list of _detect_lazada_flash_sale (lines 456-459). -/
def lazada_flash_indicators : List String :=
  ["lazflash", "flash sale", "flash deal", "lightning deal",
   "limited time", "limited quantity", "ending soon", "lazada sale"]

/-- LazadaScraper._detect_lazada_flash_sale (multi_platform_scraper.py
lines 446-528): first matching keyword picks the kind, then badge,
sale-tag, timer and limited-stock checks, then a fallback 15 percent
discount rule. -/
def detect_lazada_flash_sale (c : LazadaContainer) (current_price original_price : ℚ) :
    FlashInfo :=
  let f0 : FlashInfo := { is_flash_sale := false, sale_type := "normal", ends_at := none }
  let ct := lowerL c.text
  let f1 := match lazada_flash_indicators.find? (fun ind => pyIn ind ct) with
    | some ind =>
      { f0 with
        is_flash_sale := true
        sale_type := (if pyIn "lazflash" ind.toList || pyIn "flash" ind.toList
          then "flash_sale" else "lazada_sale") }
    | none => f0
  let f2 := if c.hasFlashBadge
    then { f1 with is_flash_sale := true, sale_type := "flash_sale" } else f1
  let f3 := if c.saleTagTexts ≠ [] ∧ f2.is_flash_sale = false then
      if c.saleTagTexts.any (fun tg =>
          ["flash", "limited", "ending"].any (fun w => pyIn w (lowerL tg)))
      then { f2 with is_flash_sale := true, sale_type := "flash_sale" } else f2
    else f2
  let f4 := match c.timerText with
    | some t =>
      { is_flash_sale := true,
        sale_type := if f3.sale_type == "normal" then "flash_sale" else f3.sale_type,
        ends_at := some (if t.isEmpty then "Soon" else t) }
    | none => f3
  let f5 := if c.stockTexts.any (fun t =>
        ["left", "remaining", "limited"].any (fun w => pyIn w (lowerL t)))
      ∧ f4.is_flash_sale = false
    then { f4 with is_flash_sale := true, sale_type := "limited_stock" } else f4
  if f5.is_flash_sale = false ∧ original_price > current_price ∧ current_price > 0 then
    let discount := ((original_price - current_price) / original_price) * 100
    if discount ≥ 15 then { f5 with is_flash_sale := true, sale_type := "discount" } else f5
  else f5

/-- One scraped listing, the product dict every scraper appends.  The
flash_sale_type, flash_sale_end and discount_percent keys exist only in
the Shopee and Lazada dicts; none models an absent key.  The
scraped_at wall-clock string, which nothing downstream reads, is not
modelled. -/
structure Product where
  name : String
  type : String
  price : ℚ
  original_price : ℚ
  flash_sale : Bool
  flash_sale_type : Option String
  flash_sale_end : Option String
  discount_percent : Option ℚ
  url : String
  platform : String
deriving DecidableEq

/-- URL resolution common to all scrapers: empty when there is no link
or no usable href, otherwise the href prefixed with the base unless it
already starts with http. -/
def resolve_url (base : String) (href : Option String) : String :=
  match href with
  | some h => if h.isEmpty then "" else if h.startsWith "http" then h else base ++ h
  | none => ""

/-- Loop body of FairPriceScraper.scrape (multi_platform_scraper.py
lines 88-125): none when the name chain misses (the continue branch).
When the original-price element is missing the source reparses
str(price), the identity on these numbers, modelled as price. -/
def fairprice_extract (c : BasicContainer) : Option Product :=
  match c.nameElem with
  | none => none
  | some name =>
    let price := extract_price (match c.priceText with | some t => t | none => "0")
    let original_price := match c.originalPriceText with
      | some t => extract_price t
      | none => price
    some {
      name := name
      type := categorize_milo_product name
      price := price
      original_price := if original_price > 0 then original_price else price
      flash_sale := decide (original_price > price ∧ price > 0)
      flash_sale_type := none
      flash_sale_end := none
      discount_percent := none
      url := resolve_url "https://www.fairprice.com.sg" c.href
      platform := "fairprice" }

/-- Loop body of ShengSiongScraper.scrape (lines 569-608), identical in
shape to the FairPrice one. -/
def shengsiong_extract (c : BasicContainer) : Option Product :=
  match c.nameElem with
  | none => none
  | some name =>
    let price := extract_price (match c.priceText with | some t => t | none => "0")
    let original_price := match c.originalPriceText with
      | some t => extract_price t
      | none => price
    some {
      name := name
      type := categorize_milo_product name
      price := price
      original_price := if original_price > 0 then original_price else price
      flash_sale := decide (original_price > price ∧ price > 0)
      flash_sale_type := none
      flash_sale_end := none
      discount_percent := none
      url := resolve_url "https://shengsiong.com.sg" c.href
      platform := "shengsiong" }

/-- Loop body of GiantScraper.scrape (lines 660-699), identical in
shape to the FairPrice one. -/
def giant_extract (c : BasicContainer) : Option Product :=
  match c.nameElem with
  | none => none
  | some name =>
    let price := extract_price (match c.priceText with | some t => t | none => "0")
    let original_price := match c.originalPriceText with
      | some t => extract_price t
      | none => price
    some {
      name := name
      type := categorize_milo_product name
      price := price
      original_price := if original_price > 0 then original_price else price
      flash_sale := decide (original_price > price ∧ price > 0)
      flash_sale_type := none
      flash_sale_end := none
      discount_percent := none
      url := resolve_url "https://giant.sg" c.href
      platform := "giant" }

/-- ShopeeScraper._extract_product_with_flash_sale
(multi_platform_scraper.py lines 199-260). -/
def shopee_extract (c : ShopeeContainer) : Option Product :=
  match c.nameElem with
  | none => none
  | some name =>
    let price := extract_price (match c.priceText with | some t => t | none => "0")
    let original_price := match c.originalPriceText with
      | some t => extract_price t
      | none => price
    let flash_info := detect_shopee_flash_sale c price original_price
    let discount_percent : ℚ := if original_price > price ∧ price > 0
      then pyRound1 (((original_price - price) / original_price) * 100) else 0
    some {
      name := name
      type := categorize_milo_product name
      price := price
      original_price := if original_price > 0 then original_price else price
      flash_sale := flash_info.is_flash_sale
      flash_sale_type := some flash_info.sale_type
      flash_sale_end := flash_info.ends_at
      discount_percent := some discount_percent
      url := resolve_url "https://shopee.sg" c.href
      platform := "shopee" }

/-- LazadaScraper._extract_product_with_flash_sale
(multi_platform_scraper.py lines 384-444). -/
def lazada_extract (c : LazadaContainer) : Option Product :=
  match c.nameElem with
  | none => none
  | some name =>
    let price := extract_price (match c.priceText with | some t => t | none => "0")
    let original_price := match c.originalPriceText with
      | some t => extract_price t
      | none => price
    let flash_info := detect_lazada_flash_sale c price original_price
    let discount_percent : ℚ := if original_price > price ∧ price > 0
      then pyRound1 (((original_price - price) / original_price) * 100) else 0
    some {
      name := name
      type := categorize_milo_product name
      price := price
      original_price := if original_price > 0 then original_price else price
      flash_sale := flash_info.is_flash_sale
      flash_sale_type := some flash_info.sale_type
      flash_sale_end := flash_info.ends_at
      discount_percent := some discount_percent
      url := resolve_url "https://www.lazada.sg" c.href
      platform := "lazada" }

/-- One iteration of a scraper container loop: extract the container
and append the listing, or skip silently when extraction yields none
(the continue / if-product branches of the source loops). -/
def appendExtracted {α : Type} (f : α → Option Product) (products : List Product) (c : α) :
    List Product :=
  match f c with
  | some p => products ++ [p]
  | none => products

/-- The container loop of FairPriceScraper.scrape (lines 87-128): the
candidate list is sliced to max_products first, then each container is
extracted or silently skipped. -/
def fairprice_scrape (containers : List BasicContainer) (max_products : ℕ) : List Product :=
  (containers.take max_products).foldl (appendExtracted fairprice_extract) []

/-- The container loop of ShopeeScraper.scrape (lines 177-189), same
slice-then-filter shape. -/
def shopee_scrape (containers : List ShopeeContainer) (max_products : ℕ) : List Product :=
  (containers.take max_products).foldl (appendExtracted shopee_extract) []

/-- One element of the prices list of a consolidated entry (the
price_info dict of consolidate_products); none models an absent key. -/
structure PriceInfo where
  platform : String
  price : ℚ
  originalPrice : ℚ
  flashSale : Bool
  flashSaleType : Option String
  flashSaleEnd : Option String
  discountPercent : Option ℚ
  url : String
deriving DecidableEq

/-- One consolidated comparison entry (a value of the seen_names dict
of consolidate_products). -/
structure Entry where
  id : ℕ
  name : String
  type : String
  prices : List PriceInfo
deriving DecidableEq

/-- The grouping key of consolidate_products (complete_backend.py line
109): first 20 characters of the name, lowercased, spaces removed. -/
def group_key (name : String) : List Char :=
  ((name.toList.take 20).map Char.toLower).filter (fun c => !(c == ' '))

/-- The price_info dict built at complete_backend.py lines 121-135: the
always-present keys plus the three optional flash-sale keys, where
flashSaleEnd is included only when present and truthy. -/
def price_info (p : Product) : PriceInfo :=
  { platform := p.platform
    price := p.price
    originalPrice := p.original_price
    flashSale := p.flash_sale
    flashSaleType := p.flash_sale_type
    flashSaleEnd := (match p.flash_sale_end with
      | some s => if s.isEmpty then none else some s
      | none => none)
    discountPercent := p.discount_percent
    url := p.url }

/-- Append one offer to an entry. -/
def addPrice (e : Entry) (o : PriceInfo) : Entry := { e with prices := e.prices ++ [o] }

/-- Keys of the insertion-ordered seen_names dict, modelled as an
association list. -/
def assocKeys (l : List (List Char × Entry)) : List (List Char) := l.map Prod.fst

/-- Append an offer to the entry stored under the given key. -/
def updateAssoc : List (List Char × Entry) → List Char → PriceInfo → List (List Char × Entry)
  | [], _, _ => []
  | (k, e) :: t, key, o =>
    if k = key then (k, addPrice e o) :: t else (k, e) :: updateAssoc t key o

/-- The main loop of consolidate_products (complete_backend.py lines
107-137) over the flattened product list: a new key appends a fresh
entry carrying the next id, then the offer is appended to the entry of
the key. -/
def consolidate_go : List Product → List (List Char × Entry) → ℕ → List (List Char × Entry)
  | [], seen, _ => seen
  | p :: ps, seen, next =>
    let key := group_key p.name
    if key ∈ assocKeys seen then
      consolidate_go ps (updateAssoc seen key (price_info p)) next
    else
      consolidate_go ps
        (updateAssoc (seen ++ [(key, { id := next, name := p.name, type := p.type, prices := [] })])
          key (price_info p))
        (next + 1)

/-- The flattening loop of consolidate_products (lines 98-101). -/
def flatten_products (pbp : List (String × List Product)) : List Product :=
  pbp.foldl (fun acc pr => acc ++ pr.2) []

/-- consolidate_products (complete_backend.py lines 83-140). -/
def consolidate_products (pbp : List (String × List Product)) : List Entry :=
  (consolidate_go (flatten_products pbp) [] 1).map Prod.snd

/-- Offers contributed to the entry of a key: the projections of all
listings carrying that key, in input order (specification side of C3). -/
def spec_offers (key : List Char) (ps : List Product) : List PriceInfo :=
  (ps.filter (fun q => decide (group_key q.name = key))).map price_info

/-- Specification-side description of consolidation, following the
words of the claim: the first listing under a key not yet seen creates
the entry, supplies its name and type and takes the next id, and the
entry collects the offers of every later listing with the same key. -/
def spec_new_entries : List (List Char) → ℕ → List Product → List (List Char × Entry)
  | _, _, [] => []
  | ks, base, p :: ps =>
    let key := group_key p.name
    if key ∈ ks then spec_new_entries ks base ps
    else
      (key, { id := base + 1, name := p.name, type := p.type,
              prices := price_info p :: spec_offers key ps })
        :: spec_new_entries (key :: ks) (base + 1) ps

/-- Specification-side consolidation of a flattened listing sequence. -/
def consolidateSpec (ps : List Product) : List Entry :=
  (spec_new_entries [] 0 ps).map Prod.snd

/-- The process-wide cache dict of complete_backend.py (lines 26-30);
timestamps are wall-clock seconds. -/
structure Cache where
  products : List Entry
  last_updated : Option ℕ
  by_platform : List (String × List Product)
deriving DecidableEq

/-- CACHE_DURATION (complete_backend.py line 32). -/
def CACHE_DURATION : ℕ := 3600

/-- get_cached_data (complete_backend.py lines 35-41).  The source
reads the seconds attribute of the timedelta now - last_updated, which
for a nonnegative whole-second age is the age modulo 86400 (the days
component is discarded), not the total age. -/
def get_cached_data (c : Cache) (now : ℕ) : Option (List Entry) :=
  match c.last_updated with
  | some t =>
    let elapsed := (now - t) % 86400
    if elapsed < CACHE_DURATION then some c.products else none
  | none => none

/-- Python truthiness of the value get_cached_data returns: None and
the empty list are both falsy. -/
def pyTruthy (o : Option (List Entry)) : Bool :=
  match o with
  | some l => !l.isEmpty
  | none => false

/-- The five platform identifiers, in the iteration order of the
scrapers dict (complete_backend.py lines 54-60). -/
def platform_names : List String := ["fairprice", "shopee", "lazada", "shengsiong", "giant"]

/-- The except-clause of the per-platform loop: a scrape call that
raises is recorded as an empty listing list. -/
def exceptToList (r : Except String (List Product)) : List Product :=
  match r with
  | Except.ok ps => ps
  | Except.error _ => []

/-- The per-platform loop of scrape_all_platforms (complete_backend.py
lines 64-71 and multi_platform_scraper.py lines 730-736): each
platform scrape call is abstracted as an oracle that either returns
its listings or raises; a raised exception is caught at the platform
boundary and recorded as an empty list. -/
def scrape_all_platforms (scrape : String → Except String (List Product)) :
    List (String × List Product) :=
  platform_names.foldl (fun acc name => acc ++ [(name, exceptToList (scrape name))]) []

/-- Dict lookup in the per-platform result map. -/
def lookupPlatform (m : List (String × List Product)) (name : String) :
    Option (List Product) :=
  (m.find? (fun pr => pr.1 == name)).map Prod.snd

/-- One element of the best_deals list of get_best_deals. -/
structure Deal where
  product : String
  best_platform : String
  best_price : ℚ
  worst_platform : String
  worst_price : ℚ
  savings : ℚ
  savings_percent : ℚ
deriving DecidableEq

/-- Ascending order on offers by price, the sort key at
complete_backend.py line 275. -/
def priceLE (a b : PriceInfo) : Prop := a.price ≤ b.price

instance : DecidableRel priceLE := fun a b => inferInstanceAs (Decidable (a.price ≤ b.price))

instance : IsTotal PriceInfo priceLE := ⟨fun a b => le_total a.price b.price⟩

instance : IsTrans PriceInfo priceLE := ⟨fun _ _ _ h1 h2 => le_trans h1 h2⟩

/-- The body of the best-deals loop for one entry (complete_backend.py
lines 272-290): entries with more than one offer are sorted by price;
when the dearest strictly exceeds the cheapest a deal is recorded. -/
def deal_of (product : Entry) : Option Deal :=
  if product.prices.length > 1 then
    match product.prices.insertionSort priceLE with
    | [] => none
    | b :: rest =>
      let w := (b :: rest).getLast (List.cons_ne_nil b rest)
      let savings := w.price - b.price
      if savings > 0 then
        some { product := product.name
               best_platform := b.platform
               best_price := b.price
               worst_platform := w.platform
               worst_price := w.price
               savings := pyRound2 savings
               savings_percent := pyRound1 ((savings / w.price) * 100) }
      else none
  else none

/-- Descending order on deals by savings, the sort at
complete_backend.py line 293. -/
def descBySavings (a b : Deal) : Prop := b.savings ≤ a.savings

instance : DecidableRel descBySavings := fun a b => inferInstanceAs (Decidable (b.savings ≤ a.savings))

instance : IsTotal Deal descBySavings := ⟨fun a b => le_total b.savings a.savings⟩

instance : IsTrans Deal descBySavings := ⟨fun _ _ _ h1 h2 => le_trans h2 h1⟩

/-- get_best_deals (complete_backend.py lines 260-298) applied to the
consolidated entry list in hand: the deals list is built entry by
entry, sorted by descending savings, truncated to 10 for the response,
while total_potential_savings sums the savings of the whole list. -/
def get_best_deals (cached : List Entry) : List Deal × ℚ :=
  let best_deals := cached.filterMap deal_of
  let sorted := best_deals.insertionSort descBySavings
  (sorted.take 10, pyRound2 ((sorted.map Deal.savings).sum))

/-- Which branch the products endpoint takes (complete_backend.py
lines 166-178): the cache branch when get_cached_data returns a truthy
value, otherwise a fresh scrape. -/
inductive ServeSource
  | cache
  | fresh_scrape
deriving DecidableEq

/-- The cache check of get_products (complete_backend.py lines 166-178). -/
def get_products_source (c : Cache) (now : ℕ) : ServeSource :=
  if pyTruthy (get_cached_data c now) then ServeSource.cache else ServeSource.fresh_scrape

/-- The cache-or-scrape read at the top of get_best_deals
(complete_backend.py lines 264-267); the would-be result of the
triggered scrape is a parameter. -/
def best_deals_data (c : Cache) (now : ℕ) (scraped : List Entry) : List Entry :=
  match get_cached_data c now with
  | some l => if l.isEmpty then scraped else l
  | none => scraped

/-- The identical cache-or-scrape read at the top of get_flash_sales
(complete_backend.py lines 305-308). -/
def flash_sales_data (c : Cache) (now : ℕ) (scraped : List Entry) : List Entry :=
  match get_cached_data c now with
  | some l => if l.isEmpty then scraped else l
  | none => scraped

/-- The example offers of the specification for best-deals. -/
def c7offerA : PriceInfo :=
  { platform := "a"
    price := 10
    originalPrice := 10
    flashSale := false
    flashSaleType := none
    flashSaleEnd := none
    discountPercent := none
    url := "" }

/-- The second example offer. -/
def c7offerB : PriceInfo :=
  { platform := "b"
    price := 15
    originalPrice := 15
    flashSale := false
    flashSaleType := none
    flashSaleEnd := none
    discountPercent := none
    url := "" }

/-- The example consolidated entry of the specification. -/
def c7entry : Entry := { id := 1, name := "m", type := "other", prices := [c7offerA, c7offerB] }

/-- The deal the specification expects for the example entry. -/
def c7deal : Deal :=
  { product := "m"
    best_platform := "a"
    best_price := 10
    worst_platform := "b"
    worst_price := 15
    savings := 5
    savings_percent := 33.3 }

/-- An arbitrary nonempty consolidated entry, used to exhibit cache
behaviour on concrete snapshots. -/
def sampleEntry : Entry := { id := 1, name := "Milo", type := "other", prices := [] }

/-- The Shopee counterexample container for C1: the visible text says
flash sale while the struck-through price is below the current one. -/
def c1cx : ShopeeContainer :=
  { nameElem := some "Milo Flash Sale Pack"
    priceText := some "$10.00"
    originalPriceText := some "$5.00"
    text := "Milo Flash Sale Pack $10.00"
    hasFlashBadge := false
    hasShopeeSaleBadge := false
    timerText := none
    href := none }

/-- The concrete FairPrice container for the C1 witness. -/
def c1wC : BasicContainer :=
  { nameElem := some "Milo Tin"
    priceText := some "$8.00"
    originalPriceText := some "$10.00"
    href := none }

/-- The listing the FairPrice loop body builds from c1wC. -/
def c1wP : Product :=
  { name := "Milo Tin"
    type := "powder"
    price := 8
    original_price := 10
    flash_sale := true
    flash_sale_type := none
    flash_sale_end := none
    discount_percent := none
    url := ""
    platform := "fairprice" }

/-- The FairPrice container for the C5 counterexample. -/
def c5cx : BasicContainer :=
  { nameElem := some "Milo Tin 1kg"
    priceText := some "$8.90"
    originalPriceText := none
    href := none }

/-- The concrete Shopee container for the C5 witness. -/
def c5wC : ShopeeContainer :=
  { nameElem := some "Milo Pack"
    priceText := some "$8.00"
    originalPriceText := some "$10.00"
    text := "Milo Pack"
    hasFlashBadge := false
    hasShopeeSaleBadge := false
    timerText := none
    href := none }

/-- The listing the Shopee extractor builds from c5wC: a 20 percent
discount, flagged through the fallback numeric rule. -/
def c5wP : Product :=
  { name := "Milo Pack"
    type := "other"
    price := 8
    original_price := 10
    flash_sale := true
    flash_sale_type := some "discount"
    flash_sale_end := none
    discount_percent := some 20
    url := ""
    platform := "shopee" }

/-- Fold one more suffix of listings into an already-built entry: the
entry keeps its identity and collects the offers of every suffix
listing that shares its key. -/
def extendEntry (ps : List Product) (ke : List Char × Entry) : List Char × Entry :=
  (ke.1, { ke.2 with prices := ke.2.prices ++ spec_offers ke.1 ps })

/-! ## Theorems -/

/-- The orchestrator loop written out over the five platforms. -/
lemma scrape_all_platforms_eq (scrape : String → Except String (List Product)) :
    scrape_all_platforms scrape =
      [("fairprice", exceptToList (scrape "fairprice")),
       ("shopee", exceptToList (scrape "shopee")),
       ("lazada", exceptToList (scrape "lazada")),
       ("shengsiong", exceptToList (scrape "shengsiong")),
       ("giant", exceptToList (scrape "giant"))] := rfl

/-- Appending through the scraper loop is filterMap after the slice. -/
lemma foldl_extract_eq_filterMap {α : Type} (f : α → Option Product) :
    ∀ (l : List α) (acc : List Product),
      l.foldl (appendExtracted f) acc = acc ++ l.filterMap f := by
  intro l
  induction l with
  | nil => intro acc; simp
  | cons c t ih =>
    intro acc
    cases hfc : f c <;> simp [appendExtracted, hfc, ih, List.filterMap_cons]

/-- A keyword hit forces the Shopee detector to report a flash sale,
whatever the two prices are. -/
lemma detect_shopee_is_flash_of_any (c : ShopeeContainer) (cp op : ℚ)
    (h : shopee_flash_indicators.any (fun ind => pyIn ind (lowerL c.text)) = true) :
    (detect_shopee_flash_sale c cp op).is_flash_sale = true := by
  unfold detect_shopee_flash_sale
  cases hb : c.hasFlashBadge <;> cases ht : c.timerText <;>
    simp [h, hb, ht]

/-- A keyword hit forces the Lazada detector to report a flash sale,
whatever the two prices are. -/
lemma detect_lazada_is_flash_of_keyword (c : LazadaContainer) (cp op : ℚ)
    (h : pyIn "flash sale" (lowerL c.text) = true) :
    (detect_lazada_flash_sale c cp op).is_flash_sale = true := by
  unfold detect_lazada_flash_sale
  cases hfind : lazada_flash_indicators.find? (fun ind => pyIn ind (lowerL c.text)) with
  | none =>
    exfalso
    have hnone := List.find?_eq_none.mp hfind "flash sale" (by decide)
    simp [h] at hnone
  | some ind =>
    cases hb : c.hasFlashBadge <;> cases ht : c.timerText <;>
      simp [hfind, hb, ht]

/-- The raw and the stored original price give the same discount
expression: the listing stores the raw strikethrough price unless it
was nonpositive, in which case it stores the current price and the
discount condition fails either way. -/
lemma discount_formula_raw_stored (price op : ℚ) :
    (if op > price ∧ price > 0 then pyRound1 (((op - price) / op) * 100) else 0)
      = (if (if op > 0 then op else price) > price ∧ price > 0
          then pyRound1 ((((if op > 0 then op else price) - price)
            / (if op > 0 then op else price)) * 100) else 0) := by
  by_cases h0 : op > 0
  · simp only [if_pos h0]
  · simp only [if_neg h0]
    by_cases hc : op > price ∧ price > 0
    · exact absurd (lt_trans hc.2 hc.1) h0
    · rw [if_neg hc, if_neg (fun hh => lt_irrefl price hh.1)]

/-- The specification-side digit scanner agrees with takeWhile and
dropWhile. -/
lemma splitDigits_eq (l : List Char) :
    splitDigits l = (l.takeWhile Char.isDigit, l.dropWhile Char.isDigit) := by
  induction l with
  | nil => rfl
  | cons c t ih =>
    cases hc : c.isDigit <;>
      simp [splitDigits, List.takeWhile_cons, List.dropWhile_cons, hc, ih]

/-- The first-decimal-substring scanner described through the dropWhile
to the first digit. -/
lemma firstNumVal_of_dropWhile (l : List Char) :
    firstNumVal l =
      (match l.dropWhile (fun c => !c.isDigit) with
        | [] => none
        | c :: t =>
          some (if ((c :: t).dropWhile Char.isDigit).head? = some '.' then
              decVal ((c :: t).takeWhile Char.isDigit)
                (((c :: t).dropWhile Char.isDigit).tail.takeWhile Char.isDigit)
            else decVal ((c :: t).takeWhile Char.isDigit) [])) := by
  induction l with
  | nil => rfl
  | cons c t ih =>
    cases hc : c.isDigit with
    | false => simpa [firstNumVal, hc, List.dropWhile_cons] using ih
    | true => simp [firstNumVal, hc, List.dropWhile_cons, splitDigits_eq]

/-- The parser equals the independent first-decimal-substring scanner. -/
lemma extract_price_eq_firstNumVal (s : String) :
    extract_price s = (firstNumVal (stripPrice s.toList)).getD 0 := by
  by_cases hs : s.isEmpty = true
  · have hs' : s = "" := (String.isEmpty_iff s).mp hs
    subst hs'
    rfl
  · unfold extract_price
    rw [if_neg hs, firstNumVal_of_dropWhile]
    simp only [String.toList]
    cases hrest : (stripPrice s.data).dropWhile (fun c => !c.isDigit) with
    | nil => simp
    | cons c t =>
      by_cases hd : ((c :: t).dropWhile Char.isDigit).head? = some '.' <;>
        simp [hd, decVal]

lemma spec_offers_cons (key : List Char) (p : Product) (ps : List Product) :
    spec_offers key (p :: ps) =
      if group_key p.name = key then price_info p :: spec_offers key ps
      else spec_offers key ps := by
  by_cases h : group_key p.name = key <;> simp [spec_offers, List.filter_cons, h]

lemma extendEntry_nil (ke : List Char × Entry) : extendEntry [] ke = ke := by
  obtain ⟨k, e⟩ := ke
  cases e
  simp [extendEntry, spec_offers]

lemma map_extendEntry_nil (l : List (List Char × Entry)) : l.map (extendEntry []) = l := by
  induction l with
  | nil => rfl
  | cons ke t ih => simp [extendEntry_nil, ih]

lemma extendEntry_cons_ne (p : Product) (ps : List Product) (ke : List Char × Entry)
    (h : ke.1 ≠ group_key p.name) : extendEntry (p :: ps) ke = extendEntry ps ke := by
  unfold extendEntry
  rw [spec_offers_cons, if_neg (fun hh => h hh.symm)]

lemma assocKeys_cons (ke : List Char × Entry) (t : List (List Char × Entry)) :
    assocKeys (ke :: t) = ke.1 :: assocKeys t := rfl

lemma assocKeys_append (l1 l2 : List (List Char × Entry)) :
    assocKeys (l1 ++ l2) = assocKeys l1 ++ assocKeys l2 := by
  simp [assocKeys]

lemma map_extendEntry_cons_of_not_mem (p : Product) (ps : List Product)
    (l : List (List Char × Entry)) (h : group_key p.name ∉ assocKeys l) :
    l.map (extendEntry (p :: ps)) = l.map (extendEntry ps) := by
  induction l with
  | nil => rfl
  | cons ke t ih =>
    rw [assocKeys_cons, List.mem_cons] at h
    push_neg at h
    rw [List.map_cons, List.map_cons, extendEntry_cons_ne p ps ke (fun hh => h.1 hh.symm),
      ih h.2]

lemma updateAssoc_keys (l : List (List Char × Entry)) (key : List Char) (o : PriceInfo) :
    assocKeys (updateAssoc l key o) = assocKeys l := by
  induction l with
  | nil => rfl
  | cons ke t ih =>
    obtain ⟨k, e⟩ := ke
    by_cases hk : k = key
    · simp [updateAssoc, hk, assocKeys_cons]
    · simp only [updateAssoc, if_neg hk, assocKeys_cons, ih]

lemma updateAssoc_length (l : List (List Char × Entry)) (key : List Char) (o : PriceInfo) :
    (updateAssoc l key o).length = l.length := by
  have h := congrArg List.length (updateAssoc_keys l key o)
  simpa [assocKeys] using h

lemma updateAssoc_append_new (l : List (List Char × Entry)) (key : List Char) (e : Entry)
    (o : PriceInfo) (h : key ∉ assocKeys l) :
    updateAssoc (l ++ [(key, e)]) key o = l ++ [(key, addPrice e o)] := by
  induction l with
  | nil => simp [updateAssoc]
  | cons ke t ih =>
    obtain ⟨k, e0⟩ := ke
    rw [assocKeys_cons, List.mem_cons] at h
    push_neg at h
    have hke : ¬ (k = key) := fun hh => h.1 hh.symm
    rw [List.cons_append, List.cons_append]
    simp only [updateAssoc, if_neg hke]
    rw [ih h.2]

lemma map_extendEntry_updateAssoc (l : List (List Char × Entry)) (p : Product)
    (ps : List Product) (hnd : (assocKeys l).Nodup) :
    (updateAssoc l (group_key p.name) (price_info p)).map (extendEntry ps)
      = l.map (extendEntry (p :: ps)) := by
  induction l with
  | nil => rfl
  | cons ke t ih =>
    obtain ⟨k, e⟩ := ke
    rw [assocKeys_cons] at hnd
    have hnd1 : (assocKeys t).Nodup := (List.nodup_cons.mp hnd).2
    by_cases hk : k = group_key p.name
    · have hknot : group_key p.name ∉ assocKeys t := hk ▸ (List.nodup_cons.mp hnd).1
      have hstep : updateAssoc ((k, e) :: t) (group_key p.name) (price_info p)
          = (k, addPrice e (price_info p)) :: t := by
        simp [updateAssoc, hk]
      rw [hstep, List.map_cons, List.map_cons]
      have hhead : extendEntry ps (k, addPrice e (price_info p))
          = extendEntry (p :: ps) (k, e) := by
        cases e
        simp [extendEntry, addPrice, spec_offers_cons, hk, List.append_assoc]
      rw [hhead, map_extendEntry_cons_of_not_mem p ps t hknot]
    · have hstep : updateAssoc ((k, e) :: t) (group_key p.name) (price_info p)
          = (k, e) :: updateAssoc t (group_key p.name) (price_info p) := by
        simp [updateAssoc, hk]
      rw [hstep, List.map_cons, List.map_cons, ih hnd1,
        extendEntry_cons_ne p ps (k, e) hk]

lemma spec_new_entries_congr (ps : List Product) :
    ∀ (ks ks' : List (List Char)) (base : ℕ), (∀ k, k ∈ ks ↔ k ∈ ks') →
      spec_new_entries ks base ps = spec_new_entries ks' base ps := by
  induction ps with
  | nil => intros; rfl
  | cons p ps ih =>
    intro ks ks' base h
    by_cases hk : group_key p.name ∈ ks
    · simp only [spec_new_entries, if_pos hk, if_pos ((h _).mp hk)]
      exact ih ks ks' base h
    · simp only [spec_new_entries, if_neg hk, if_neg (fun hh => hk ((h _).mpr hh))]
      rw [ih (group_key p.name :: ks) (group_key p.name :: ks') (base + 1)
        (by intro k; simp [h k])]

/-- The invariant of the consolidation loop: from any well-formed
seen_names state, the loop extends every existing entry with the
offers of the remaining listings that carry its key, and appends the
specification-side new entries for keys not seen yet, with ids
continuing from the current dict size. -/
lemma consolidate_go_spec (ps : List Product) :
    ∀ (seen : List (List Char × Entry)), (assocKeys seen).Nodup →
      consolidate_go ps seen (seen.length + 1) =
        seen.map (extendEntry ps) ++ spec_new_entries (assocKeys seen) seen.length ps := by
  induction ps with
  | nil =>
    intro seen _
    simp [consolidate_go, spec_new_entries, map_extendEntry_nil]
  | cons p ps ih =>
    intro seen hnd
    by_cases hmem : group_key p.name ∈ assocKeys seen
    · have hkeys := updateAssoc_keys seen (group_key p.name) (price_info p)
      have hlen := updateAssoc_length seen (group_key p.name) (price_info p)
      have hrec := ih (updateAssoc seen (group_key p.name) (price_info p))
        (by rw [hkeys]; exact hnd)
      rw [hlen] at hrec
      simp only [consolidate_go, if_pos hmem]
      rw [hrec, hkeys, map_extendEntry_updateAssoc seen p ps hnd]
      simp only [spec_new_entries, if_pos hmem]
    · have hkeys2 : assocKeys (seen ++ [(group_key p.name,
          addPrice { id := seen.length + 1, name := p.name, type := p.type, prices := [] }
            (price_info p))])
          = assocKeys seen ++ [group_key p.name] := by
        simp [assocKeys]
      simp only [consolidate_go, if_neg hmem]
      rw [updateAssoc_append_new seen (group_key p.name) _ (price_info p) hmem]
      have hlen3 : (seen ++ [(group_key p.name,
          addPrice { id := seen.length + 1, name := p.name, type := p.type, prices := [] }
            (price_info p))]).length = seen.length + 1 := by
        simp
      have hrec := ih (seen ++ [(group_key p.name,
          addPrice { id := seen.length + 1, name := p.name, type := p.type, prices := [] }
            (price_info p))])
        (by
          simp only [assocKeys, List.map_append, List.map_cons, List.map_nil]
          rw [List.nodup_append]
          refine ⟨hnd, List.nodup_singleton _, ?_⟩
          intro a ha hb
          simp at hb
          subst hb
          exact hmem ha)
      rw [hlen3] at hrec
      rw [hrec]
      rw [List.map_append, map_extendEntry_cons_of_not_mem p ps seen hmem]
      have hsingle : [(group_key p.name,
          addPrice { id := seen.length + 1, name := p.name, type := p.type, prices := [] }
            (price_info p))].map (extendEntry ps)
          = [(group_key p.name,
              { id := seen.length + 1, name := p.name, type := p.type,
                prices := price_info p :: spec_offers (group_key p.name) ps })] := by
        simp [extendEntry, addPrice]
      rw [hsingle]
      have hcongr := spec_new_entries_congr ps
        (assocKeys seen ++ [group_key p.name]) (group_key p.name :: assocKeys seen)
        (seen.length + 1) (by intro k; simp [or_comm])
      rw [hkeys2, hcongr]
      simp only [spec_new_entries, if_neg hmem]
      simp [List.append_assoc]

/-- Ids of the specification-side entries are consecutive from the
base. -/
lemma spec_new_entries_ids (ps : List Product) :
    ∀ (ks : List (List Char)) (base : ℕ),
      (spec_new_entries ks base ps).map (fun ke => ke.2.id)
        = List.range' (base + 1) (spec_new_entries ks base ps).length := by
  induction ps with
  | nil => intros; rfl
  | cons p ps ih =>
    intro ks base
    by_cases hk : group_key p.name ∈ ks
    · simp only [spec_new_entries, if_pos hk]
      exact ih ks base
    · simp only [spec_new_entries, if_neg hk, List.map_cons, List.length_cons]
      rw [ih (group_key p.name :: ks) (base + 1), List.range'_succ]

/-- In a sorted offer list, every element is bounded by the last. -/
lemma sorted_le_getLast (l : List PriceInfo) (hs : List.Sorted priceLE l) (hne : l ≠ []) :
    ∀ o ∈ l, priceLE o (l.getLast hne) := by
  induction l with
  | nil => intro o ho; simp at ho
  | cons a t ih =>
    intro o ho
    cases t with
    | nil =>
      simp at ho
      subst ho
      exact le_refl _
    | cons b t2 =>
      rw [List.getLast_cons (List.cons_ne_nil b t2)]
      rcases List.mem_cons.mp ho with rfl | hot
      · exact List.rel_of_sorted_cons hs _ (List.getLast_mem (List.cons_ne_nil b t2))
      · exact ih hs.of_cons (List.cons_ne_nil b t2) o hot

/-- What one recorded deal says about its entry: best and worst come
from offers of the entry, they bound every offer, the dearest strictly
exceeds the cheapest, and the savings fields follow the two rounding
formulas. -/
lemma deal_of_spec (e : Entry) (d : Deal) (h : deal_of e = some d) :
    (∃ o ∈ e.prices, o.platform = d.best_platform ∧ o.price = d.best_price)
    ∧ (∃ o ∈ e.prices, o.platform = d.worst_platform ∧ o.price = d.worst_price)
    ∧ (∀ o ∈ e.prices, d.best_price ≤ o.price ∧ o.price ≤ d.worst_price)
    ∧ d.best_price < d.worst_price
    ∧ d.savings = pyRound2 (d.worst_price - d.best_price)
    ∧ d.savings_percent = pyRound1 (((d.worst_price - d.best_price) / d.worst_price) * 100)
    ∧ d.product = e.name := by
  unfold deal_of at h
  by_cases hlen : e.prices.length > 1
  swap
  · rw [if_neg hlen] at h
    simp at h
  rw [if_pos hlen] at h
  cases hsort : e.prices.insertionSort priceLE with
  | nil =>
    rw [hsort] at h
    simp at h
  | cons b rest =>
    rw [hsort] at h
    have hperm : (b :: rest).Perm e.prices := by
      rw [← hsort]
      exact List.perm_insertionSort priceLE e.prices
    have hsorted : List.Sorted priceLE (b :: rest) := by
      rw [← hsort]
      exact List.sorted_insertionSort priceLE e.prices
    simp only at h
    by_cases hpos : ((b :: rest).getLast (List.cons_ne_nil b rest)).price - b.price > 0
    swap
    · rw [if_neg hpos] at h
      simp at h
    rw [if_pos hpos] at h
    rw [Option.some_inj] at h
    subst h
    have hbmem : b ∈ e.prices := hperm.subset (List.mem_cons_self b rest)
    have hwmem : (b :: rest).getLast (List.cons_ne_nil b rest) ∈ e.prices :=
      hperm.subset (List.getLast_mem (List.cons_ne_nil b rest))
    refine ⟨⟨b, hbmem, rfl, rfl⟩, ⟨_, hwmem, rfl, rfl⟩, ?_, ?_, rfl, rfl, rfl⟩
    · intro o ho
      have ho2 : o ∈ b :: rest := hperm.mem_iff.mpr ho
      constructor
      · rcases List.mem_cons.mp ho2 with rfl | hot
        · exact le_refl _
        · exact List.rel_of_sorted_cons hsorted o hot
      · exact sorted_le_getLast (b :: rest) hsorted (List.cons_ne_nil b rest) o ho2
    · exact sub_pos.mp hpos

/-- C2: the claim requires every snapshot of age at least ttl + 1
second, ages beyond one day included, to be treated as stale.  The
code reads timedelta.seconds, which discards whole days, so a snapshot
aged 86401 seconds (one day and one second, far beyond the 3600 second
ttl) is served as fresh: get_cached_data returns the cached products
instead of none. -/
theorem get_cached_data_serves_day_old_snapshot :
    get_cached_data { products := [sampleEntry], last_updated := some 0, by_platform := [] } 86401
      = some [sampleEntry]
    ∧ CACHE_DURATION + 1 ≤ 86401 - 0 := by
  constructor
  · rfl
  · decide

/-- C10: a fresh snapshot whose product list is empty reads exactly
like an absent cache: get_cached_data returns the empty list, which is
falsy, so the products endpoint takes its fresh-scrape branch and the
best-deals and flash-sales endpoints fall through to a fresh scrape,
just as they do when no snapshot exists at all. -/
theorem fresh_empty_snapshot_reads_as_cache_miss
    (bp : List (String × List Product)) (t now : ℕ) (scraped : List Entry)
    (hfresh : now - t < CACHE_DURATION) :
    get_cached_data { products := [], last_updated := some t, by_platform := bp } now = some []
    ∧ get_products_source { products := [], last_updated := some t, by_platform := bp } now
        = ServeSource.fresh_scrape
    ∧ best_deals_data { products := [], last_updated := some t, by_platform := bp } now scraped
        = scraped
    ∧ flash_sales_data { products := [], last_updated := some t, by_platform := bp } now scraped
        = scraped
    ∧ get_products_source { products := [], last_updated := some t, by_platform := bp } now
        = get_products_source { products := [], last_updated := none, by_platform := bp } now
    ∧ best_deals_data { products := [], last_updated := some t, by_platform := bp } now scraped
        = best_deals_data { products := [], last_updated := none, by_platform := bp } now scraped
    ∧ flash_sales_data { products := [], last_updated := some t, by_platform := bp } now scraped
        = flash_sales_data { products := [], last_updated := none, by_platform := bp } now scraped := by
  have hlt : (now - t) % 86400 < CACHE_DURATION := by
    rw [Nat.mod_eq_of_lt (lt_trans hfresh (by norm_num [CACHE_DURATION]))]
    exact hfresh
  have hcd : get_cached_data { products := [], last_updated := some t, by_platform := bp } now
      = some [] := by
    simp [get_cached_data, hlt]
  refine ⟨hcd, ?_, ?_, ?_, ?_, ?_, ?_⟩ <;>
    simp [get_products_source, best_deals_data, flash_sales_data, pyTruthy, hcd, get_cached_data,
      hlt]

/-- Witness for C10 at a concrete fresh empty snapshot. -/
theorem fresh_empty_snapshot_reads_as_cache_miss_witness :
    get_products_source { products := [], last_updated := some 100, by_platform := [] } 130
      = ServeSource.fresh_scrape :=
  (fresh_empty_snapshot_reads_as_cache_miss [] 100 130 [sampleEntry] (by decide)).2.1

/-- C9: categorization is total, returns exactly one of the four
categories, and respects the fixed priority order uht, then powder,
then bottle, first match winning, with other as the no-match result;
a name containing both a uht and a powder keyword categorizes as uht. -/
theorem categorize_total_and_priority (name : String) :
    (categorize_milo_product name = "uht" ∨ categorize_milo_product name = "powder"
      ∨ categorize_milo_product name = "bottle" ∨ categorize_milo_product name = "other")
    ∧ (uht_words.any (fun w => pyIn w (lowerL name)) = true →
        categorize_milo_product name = "uht")
    ∧ (uht_words.any (fun w => pyIn w (lowerL name)) = false →
        powder_words.any (fun w => pyIn w (lowerL name)) = true →
        categorize_milo_product name = "powder")
    ∧ (uht_words.any (fun w => pyIn w (lowerL name)) = false →
        powder_words.any (fun w => pyIn w (lowerL name)) = false →
        bottle_words.any (fun w => pyIn w (lowerL name)) = true →
        categorize_milo_product name = "bottle")
    ∧ (uht_words.any (fun w => pyIn w (lowerL name)) = false →
        powder_words.any (fun w => pyIn w (lowerL name)) = false →
        bottle_words.any (fun w => pyIn w (lowerL name)) = false →
        categorize_milo_product name = "other")
    ∧ categorize_milo_product "Milo UHT powder pack" = "uht" := by
  refine ⟨?_, ?_, ?_, ?_, ?_, by decide⟩
  · cases h1 : uht_words.any (fun w => pyIn w (lowerL name)) <;>
      cases h2 : powder_words.any (fun w => pyIn w (lowerL name)) <;>
      cases h3 : bottle_words.any (fun w => pyIn w (lowerL name)) <;>
      simp [categorize_milo_product, h1, h2, h3]
  · intro h1
    simp [categorize_milo_product, h1]
  · intro h1 h2
    simp [categorize_milo_product, h1, h2]
  · intro h1 h2 h3
    simp [categorize_milo_product, h1, h2, h3]
  · intro h1 h2 h3
    simp [categorize_milo_product, h1, h2, h3]

/-- Witness for C9: a name with both a uht and a powder keyword. -/
theorem categorize_total_and_priority_witness :
    categorize_milo_product "Milo UHT powder" = "uht" :=
  (categorize_total_and_priority "Milo UHT powder").2.1 (by decide)

/-- C4: every scrape cycle visits each platform independently; a
raised exception is caught at the platform boundary and yields an
empty list for that platform only, the result map always carries an
entry for every platform, a succeeding platform keeps its listings
whatever the others did, and even when every platform fails the cycle
completes with all platform lists empty. -/
theorem scrape_all_platforms_isolates_failures
    (scrape : String → Except String (List Product)) :
    (scrape_all_platforms scrape).map Prod.fst = platform_names
    ∧ (∀ name, name ∈ platform_names → ∀ e, scrape name = Except.error e →
        lookupPlatform (scrape_all_platforms scrape) name = some [])
    ∧ (∀ name, name ∈ platform_names → ∀ ps, scrape name = Except.ok ps →
        lookupPlatform (scrape_all_platforms scrape) name = some ps)
    ∧ ((∀ name, name ∈ platform_names → ∃ e, scrape name = Except.error e) →
        scrape_all_platforms scrape = platform_names.map (fun n => (n, []))) := by
  refine ⟨rfl, ?_, ?_, ?_⟩
  · intro name hn e he
    have hn5 : name = "fairprice" ∨ name = "shopee" ∨ name = "lazada"
        ∨ name = "shengsiong" ∨ name = "giant" := by
      simpa [platform_names] using hn
    rcases hn5 with rfl | rfl | rfl | rfl | rfl <;>
      simp [lookupPlatform, scrape_all_platforms_eq, exceptToList, he]
  · intro name hn ps hok
    have hn5 : name = "fairprice" ∨ name = "shopee" ∨ name = "lazada"
        ∨ name = "shengsiong" ∨ name = "giant" := by
      simpa [platform_names] using hn
    rcases hn5 with rfl | rfl | rfl | rfl | rfl <;>
      simp [lookupPlatform, scrape_all_platforms_eq, exceptToList, hok]
  · intro hall
    obtain ⟨e1, h1⟩ := hall "fairprice" (by simp [platform_names])
    obtain ⟨e2, h2⟩ := hall "shopee" (by simp [platform_names])
    obtain ⟨e3, h3⟩ := hall "lazada" (by simp [platform_names])
    obtain ⟨e4, h4⟩ := hall "shengsiong" (by simp [platform_names])
    obtain ⟨e5, h5⟩ := hall "giant" (by simp [platform_names])
    simp [scrape_all_platforms_eq, exceptToList, h1, h2, h3, h4, h5, platform_names]

/-- Witness for C4: one platform raising leaves the others intact. -/
theorem scrape_all_platforms_isolates_failures_witness :
    lookupPlatform
      (scrape_all_platforms
        (fun n => if n = "shopee" then Except.error "boom" else Except.ok []))
      "shopee" = some [] :=
  (scrape_all_platforms_isolates_failures
      (fun n => if n = "shopee" then Except.error "boom" else Except.ok [])).2.1
    "shopee" (by decide) "boom" rfl

/-- C6: each scraper slices the candidate container list to
max_products before per-container filtering, so at most the first
max_products containers are considered, a container skipped for a
missing name still consumes a slot, the skip does not abort the batch,
and the extracted list never exceeds max_products listings. -/
theorem scrape_truncates_before_filtering
    (fairCs : List BasicContainer) (shopCs : List ShopeeContainer) (m : ℕ) :
    fairprice_scrape fairCs m = (fairCs.take m).filterMap fairprice_extract
    ∧ shopee_scrape shopCs m = (shopCs.take m).filterMap shopee_extract
    ∧ (fairprice_scrape fairCs m).length ≤ m
    ∧ (shopee_scrape shopCs m).length ≤ m
    ∧ (∀ (c : BasicContainer) (cs : List BasicContainer) (k : ℕ), c.nameElem = none →
        fairprice_scrape (c :: cs) (k + 1) = fairprice_scrape cs k)
    ∧ (∀ (c : ShopeeContainer) (cs : List ShopeeContainer) (k : ℕ), c.nameElem = none →
        shopee_scrape (c :: cs) (k + 1) = shopee_scrape cs k) := by
  have hf : ∀ (cs : List BasicContainer) (k : ℕ),
      fairprice_scrape cs k = (cs.take k).filterMap fairprice_extract := by
    intro cs k
    simpa [fairprice_scrape] using foldl_extract_eq_filterMap fairprice_extract (cs.take k) []
  have hs : ∀ (cs : List ShopeeContainer) (k : ℕ),
      shopee_scrape cs k = (cs.take k).filterMap shopee_extract := by
    intro cs k
    simpa [shopee_scrape] using foldl_extract_eq_filterMap shopee_extract (cs.take k) []
  refine ⟨hf fairCs m, hs shopCs m, ?_, ?_, ?_, ?_⟩
  · rw [hf]
    exact le_trans (List.length_filterMap_le _ _) (List.length_take_le _ _)
  · rw [hs]
    exact le_trans (List.length_filterMap_le _ _) (List.length_take_le _ _)
  · intro c cs k hc
    rw [hf, hf, List.take_succ_cons, List.filterMap_cons]
    simp [fairprice_extract, hc]
  · intro c cs k hc
    rw [hs, hs, List.take_succ_cons, List.filterMap_cons]
    simp [shopee_extract, hc]

/-- Witness for C6: a nameless container consumes the only slot. -/
theorem scrape_truncates_before_filtering_witness :
    fairprice_scrape [{ nameElem := none, priceText := none, originalPriceText := none, href := none }] (0 + 1)
      = fairprice_scrape [] 0 :=
  (scrape_truncates_before_filtering [] [] 0).2.2.2.2.1
    { nameElem := none, priceText := none, originalPriceText := none, href := none } [] 0 rfl

/-- C1 counterexample: the Shopee adapter produces a listing with
isPromotion true, price 10 and originalPrice 5, both positive and with
originalPrice strictly below price, so the claimed invariant that such
a listing cannot exist (isPromotion being forced false when the
ordering fails) does not hold for the code. -/
theorem shopee_flash_sale_ignores_price_order_cx :
    (shopee_extract c1cx).map (fun p => (p.flash_sale, p.price, p.original_price))
      = some (true, 10, 5)
    ∧ (5 : ℚ) < 10 ∧ (0 : ℚ) < 5 := by
  refine ⟨by with_unfolding_all decide, by norm_num, by norm_num⟩

/-- C1 amended: for the FairPrice, ShengSiong and Giant adapters the
invariant holds, since isPromotion is set exactly when
originalPrice > price > 0; for Shopee and Lazada the keyword heuristic
sets isPromotion with no regard to the price pair, so isPromotion is
not forced false when the ordering cannot be established. -/
theorem promotion_invariant_basic_platforms_only :
    (∀ (c : BasicContainer) (p : Product), fairprice_extract c = some p →
        p.flash_sale = true → p.original_price > p.price ∧ p.price > 0)
    ∧ (∀ (c : BasicContainer) (p : Product), shengsiong_extract c = some p →
        p.flash_sale = true → p.original_price > p.price ∧ p.price > 0)
    ∧ (∀ (c : BasicContainer) (p : Product), giant_extract c = some p →
        p.flash_sale = true → p.original_price > p.price ∧ p.price > 0)
    ∧ (∀ (c : ShopeeContainer) (p : Product), shopee_extract c = some p →
        pyIn "flash sale" (lowerL c.text) = true → p.flash_sale = true)
    ∧ (∀ (c : LazadaContainer) (p : Product), lazada_extract c = some p →
        pyIn "flash sale" (lowerL c.text) = true → p.flash_sale = true) := by
  refine ⟨?_, ?_, ?_, ?_, ?_⟩
  · intro c p h hf
    cases hn : c.nameElem with
    | none => simp [fairprice_extract, hn] at h
    | some name =>
      simp only [fairprice_extract, hn, Option.some.injEq] at h
      subst h
      simp only [decide_eq_true_eq] at hf
      obtain ⟨h1, h2⟩ := hf
      refine ⟨?_, h2⟩
      simp only
      rw [if_pos (lt_trans h2 h1)]
      exact h1
  · intro c p h hf
    cases hn : c.nameElem with
    | none => simp [shengsiong_extract, hn] at h
    | some name =>
      simp only [shengsiong_extract, hn, Option.some.injEq] at h
      subst h
      simp only [decide_eq_true_eq] at hf
      obtain ⟨h1, h2⟩ := hf
      refine ⟨?_, h2⟩
      simp only
      rw [if_pos (lt_trans h2 h1)]
      exact h1
  · intro c p h hf
    cases hn : c.nameElem with
    | none => simp [giant_extract, hn] at h
    | some name =>
      simp only [giant_extract, hn, Option.some.injEq] at h
      subst h
      simp only [decide_eq_true_eq] at hf
      obtain ⟨h1, h2⟩ := hf
      refine ⟨?_, h2⟩
      simp only
      rw [if_pos (lt_trans h2 h1)]
      exact h1
  · intro c p h hk
    cases hn : c.nameElem with
    | none => simp [shopee_extract, hn] at h
    | some name =>
      simp only [shopee_extract, hn, Option.some.injEq] at h
      subst h
      exact detect_shopee_is_flash_of_any c _ _
        (by rw [List.any_eq_true]; exact ⟨"flash sale", by decide, hk⟩)
  · intro c p h hk
    cases hn : c.nameElem with
    | none => simp [lazada_extract, hn] at h
    | some name =>
      simp only [lazada_extract, hn, Option.some.injEq] at h
      subst h
      exact detect_lazada_is_flash_of_keyword c _ _ hk

/-- Witness for C1 at a concrete promoted FairPrice listing. -/
theorem promotion_invariant_basic_platforms_only_witness :
    c1wP.original_price > c1wP.price ∧ c1wP.price > 0 :=
  promotion_invariant_basic_platforms_only.1 c1wC c1wP (by with_unfolding_all decide) (by decide)

/-- C5 counterexample: the FairPrice adapter produces a listing that
carries no discountPercent field at all (the dict key is absent), so
not every platform adapter attaches the field. -/
theorem fairprice_lacks_discount_percent_cx :
    (fairprice_extract c5cx).map Product.discount_percent = some none := by
  with_unfolding_all decide

/-- C5 amended: the Shopee and Lazada adapters attach discountPercent,
computed independently of promotion detection as
round(((originalPrice - price) / originalPrice) * 100, 1) when
originalPrice > price > 0 and 0 otherwise; the FairPrice, ShengSiong
and Giant adapters attach no discountPercent field. -/
theorem discount_percent_shopee_lazada_only :
    (∀ (c : ShopeeContainer) (p : Product), shopee_extract c = some p →
        p.discount_percent = some (if p.original_price > p.price ∧ p.price > 0
          then pyRound1 (((p.original_price - p.price) / p.original_price) * 100) else 0))
    ∧ (∀ (c : LazadaContainer) (p : Product), lazada_extract c = some p →
        p.discount_percent = some (if p.original_price > p.price ∧ p.price > 0
          then pyRound1 (((p.original_price - p.price) / p.original_price) * 100) else 0))
    ∧ (∀ (c : BasicContainer) (p : Product), fairprice_extract c = some p →
        p.discount_percent = none)
    ∧ (∀ (c : BasicContainer) (p : Product), shengsiong_extract c = some p →
        p.discount_percent = none)
    ∧ (∀ (c : BasicContainer) (p : Product), giant_extract c = some p →
        p.discount_percent = none) := by
  refine ⟨?_, ?_, ?_, ?_, ?_⟩
  · intro c p h
    cases hn : c.nameElem with
    | none => simp [shopee_extract, hn] at h
    | some name =>
      simp only [shopee_extract, hn, Option.some.injEq] at h
      subst h
      simp only
      exact congrArg some (discount_formula_raw_stored _ _)
  · intro c p h
    cases hn : c.nameElem with
    | none => simp [lazada_extract, hn] at h
    | some name =>
      simp only [lazada_extract, hn, Option.some.injEq] at h
      subst h
      simp only
      exact congrArg some (discount_formula_raw_stored _ _)
  · intro c p h
    cases hn : c.nameElem with
    | none => simp [fairprice_extract, hn] at h
    | some name =>
      simp only [fairprice_extract, hn, Option.some.injEq] at h
      subst h
      rfl
  · intro c p h
    cases hn : c.nameElem with
    | none => simp [shengsiong_extract, hn] at h
    | some name =>
      simp only [shengsiong_extract, hn, Option.some.injEq] at h
      subst h
      rfl
  · intro c p h
    cases hn : c.nameElem with
    | none => simp [giant_extract, hn] at h
    | some name =>
      simp only [giant_extract, hn, Option.some.injEq] at h
      subst h
      rfl

/-- Witness for C5 at a concrete discounted Shopee listing. -/
theorem discount_percent_shopee_lazada_only_witness :
    c5wP.discount_percent = some (if c5wP.original_price > c5wP.price ∧ c5wP.price > 0
      then pyRound1 (((c5wP.original_price - c5wP.price) / c5wP.original_price) * 100) else 0) :=
  discount_percent_shopee_lazada_only.1 c5wC c5wP (by with_unfolding_all decide)

/-- C8: price parsing is total; it strips separators and currency
symbols, then returns the numeric value of the first decimal-like
substring (an independently written scanner names that value), returns
0 when the stripped text carries no digit at all or the text is empty,
and meets the two concrete examples of the specification. -/
theorem extract_price_first_decimal (s : String) :
    extract_price s = (firstNumVal (stripPrice s.toList)).getD 0
    ∧ ((stripPrice s.toList).all (fun c => !c.isDigit) = true → extract_price s = 0)
    ∧ extract_price "no digits" = 0
    ∧ extract_price "$1,234.50" = 1234.50
    ∧ extract_price "" = 0 := by
  refine ⟨extract_price_eq_firstNumVal s, ?_, ?_, ?_, rfl⟩
  · intro hall
    rw [extract_price_eq_firstNumVal]
    have hdrop : (stripPrice s.toList).dropWhile (fun c => !c.isDigit) = [] := by
      rw [List.dropWhile_eq_nil_iff]
      intro x hx
      simpa using List.all_eq_true.mp hall x hx
    rw [firstNumVal_of_dropWhile, hdrop]
    rfl
  · rw [extract_price_eq_firstNumVal]
    rfl
  · rw [extract_price_eq_firstNumVal]
    have h2 : firstNumVal (stripPrice "$1,234.50".toList)
        = some (decVal ['1', '2', '3', '4'] ['5', '0']) := rfl
    rw [h2, Option.getD_some, decVal]
    have d1 : digitsVal ['1', '2', '3', '4'] = 1234 := by decide
    have d2 : digitsVal ['5', '0'] = 50 := by decide
    rw [d1, d2]
    norm_num

/-- Witness for C8: the digit-free example goes through the no-digit
branch of the theorem. -/
theorem extract_price_first_decimal_witness :
    extract_price "no digits" = 0 :=
  (extract_price_first_decimal "no digits").2.1 (by decide)

/-- C3: consolidation equals the specification-side description: the
flattened listings are grouped by the key (first 20 characters of the
name, lowercased, spaces removed), the first listing under a new key
creates the entry, supplies its name and category and takes the next
sequential id starting from 1, and every later listing with the same
key appends its offer to that entry; in particular the ids of the
output are exactly 1, 2, ... in first-seen order, and the two example
names of the specification share one key. -/
theorem consolidate_products_matches_spec (pbp : List (String × List Product)) :
    consolidate_products pbp = consolidateSpec (flatten_products pbp)
    ∧ (consolidate_products pbp).map Entry.id
        = List.range' 1 (consolidate_products pbp).length
    ∧ group_key "Milo 3in1 Instant Sachet 20x33g"
        = group_key "Milo 3in1 Instant Sachet Bundle" := by
  have hmain : consolidate_products pbp = consolidateSpec (flatten_products pbp) := by
    unfold consolidate_products consolidateSpec
    have h := consolidate_go_spec (flatten_products pbp) [] (by simp [assocKeys])
    simpa [assocKeys] using congrArg (List.map Prod.snd) h
  refine ⟨hmain, ?_, by decide⟩
  rw [hmain]
  unfold consolidateSpec
  rw [List.map_map, List.length_map]
  have h := spec_new_entries_ids (flatten_products pbp) [] 0
  simp only [Nat.zero_add] at h
  exact h

/-- C7: best-deals returns, for every qualifying consolidated entry
(more than one offer, cheapest strictly below dearest), a deal whose
best and worst sides are the cheapest and dearest offers, with savings
rounded to 2 decimals and savings_percent rounded to 1 decimal of
savings over the worst price; the response is the top 10 deals sorted
by descending savings, while total_potential_savings sums the savings
of every qualifying entry, not just the returned 10; the concrete
10-versus-15 example of the specification evaluates as stated. -/
theorem get_best_deals_spec (cached : List Entry) :
    (get_best_deals cached).1
        = ((cached.filterMap deal_of).insertionSort descBySavings).take 10
    ∧ (get_best_deals cached).1.length ≤ 10
    ∧ List.Sorted descBySavings (get_best_deals cached).1
    ∧ (∀ d ∈ (get_best_deals cached).1, d ∈ cached.filterMap deal_of)
    ∧ (get_best_deals cached).2
        = pyRound2 (((cached.filterMap deal_of).map Deal.savings).sum)
    ∧ (∀ e ∈ cached, ∀ d, deal_of e = some d →
        (∃ o ∈ e.prices, o.platform = d.best_platform ∧ o.price = d.best_price)
        ∧ (∃ o ∈ e.prices, o.platform = d.worst_platform ∧ o.price = d.worst_price)
        ∧ (∀ o ∈ e.prices, d.best_price ≤ o.price ∧ o.price ≤ d.worst_price)
        ∧ d.best_price < d.worst_price
        ∧ d.savings = pyRound2 (d.worst_price - d.best_price)
        ∧ d.savings_percent = pyRound1 (((d.worst_price - d.best_price) / d.worst_price) * 100)
        ∧ d.product = e.name)
    ∧ deal_of c7entry = some c7deal := by
  refine ⟨rfl, ?_, ?_, ?_, ?_, ?_, ?_⟩
  · exact List.length_take_le _ _
  · exact List.Pairwise.sublist (List.take_sublist _ _)
      (List.sorted_insertionSort descBySavings (cached.filterMap deal_of))
  · intro d hd
    exact (List.perm_insertionSort descBySavings (cached.filterMap deal_of)).subset
      (List.mem_of_mem_take hd)
  · unfold get_best_deals
    simp only []
    exact congrArg pyRound2
      (List.Perm.sum_eq ((List.perm_insertionSort descBySavings _).map Deal.savings))
  · intro e _ d h
    exact deal_of_spec e d h
  · with_unfolding_all decide

/-- Witness for C7: the example deal exercised through the per-entry
clause of the theorem at a concrete entry list. -/
theorem get_best_deals_spec_witness :
    c7deal.best_price < c7deal.worst_price :=
  ((get_best_deals_spec [c7entry]).2.2.2.2.2.1 c7entry (by simp) c7deal
    (by with_unfolding_all decide)).2.2.2.1

end Milo



